import Mathlib

/-!
Verification of the TimioWebAI python backend (src/python_backend/main.py,
schemas.py) against its natural-language specification.  The Python data model
and the pure parts of the operations are embedded shallowly: JSON dictionaries
become structures, absent keys become Option.none, Python sets are modelled by
lists with membership, and real-valued delays by rationals.
-/

namespace TimioWeb

/-- The double-quotation-mark character (codepoint 34) used by the
quote-extraction regex in main.py. -/
def dquote : Char := Char.ofNat 34

/-- The hyphen character (codepoint 45). -/
def hyphen : Char := Char.ofNat 45

/-- The space character (codepoint 32). -/
def spaceChar : Char := Char.ofNat 32

/-- One side of a conflicting_info entry: the source name and its quote
(example_for_conflicting_info, main.py:1049-1064; the url field is never
consulted by deduplication or validation). -/
structure ConflictSource where
  name : String
  quote : String
deriving DecidableEq, Repr

/-- One conflicting_info entry with its two sides and the article_id stamp
(example_for_conflicting_info, main.py:1049-1064). -/
structure Conflict where
  article_id : Nat
  conflict : String
  source_a : ConflictSource
  source_b : ConflictSource
deriving DecidableEq, Repr

/-- State machine equivalent to re.findall applied with the pattern that
matches a double-quoted run of non-quote characters (main.py:1314, 1329):
outside a quote skip until an opening mark, inside a quote accumulate until
the closing mark; an unclosed trailing quote produces no match. -/
def extractQuotesGo : List Char → List Char → Bool → List String
  | [], _, _ => []
  | c :: rest, acc, inside =>
    if c = dquote then
      if inside then String.mk acc.reverse :: extractQuotesGo rest [] false
      else extractQuotesGo rest [] true
    else
      if inside then extractQuotesGo rest (c :: acc) true
      else extractQuotesGo rest [] false

/-- All quotes (substrings delimited by double quotation marks) of a string,
in order of appearance. -/
def extractQuotes (s : String) : List String :=
  extractQuotesGo s.data [] false

/-- A timeline_items element (schemas.py:28-35; source_url omitted, it is
never consulted by the embedded operations). -/
structure TimelineItem where
  article_id : Nat
  date : String
  title : String
  description : String
  type : String
  source_label : String
deriving DecidableEq, Repr

/-- A cited_sources element (schemas.py:37-43). -/
structure CitedSource where
  article_id : Nat
  name : String
  type : String
  description : String
  url : String
  image_url : Option String
deriving DecidableEq, Repr

/-- A raw_facts element (schemas.py:45-48). -/
structure RawFactGroup where
  article_id : Nat
  category : String
  facts : List String
deriving DecidableEq, Repr

/-- A perspectives element (schemas.py:50-62; the optional fields not consulted
by any embedded operation are omitted). -/
structure Perspective where
  article_id : Nat
  viewpoint : String
  description : String
  source : Option String
  quote : Option String
  conflict_quote : Option String
  color : String
deriving DecidableEq, Repr

/-- The executive_summary payload (schemas.py:24-26). -/
structure ExecSummary where
  article_id : Nat
  points : List String
deriving DecidableEq, Repr

/-- The article payload (schemas.py:10-22). -/
structure Article where
  id : Nat
  title : String
  slug : String
  excerpt : String
  content : String
  category : String
  published_at : String
  read_time : Nat
  source_count : Nat
  hero_image_url : String
  author_name : Option String
  author_title : Option String
deriving DecidableEq, Repr

/-- The final_report_data / research_report dictionary while it is being
assembled (main.py:270-391, 1533-1576): every key may still be absent, which is
modelled by Option.none. -/
structure ReportDraft where
  article : Option Article
  executive_summary : Option ExecSummary
  timeline_items : Option (List TimelineItem)
  cited_sources : Option (List CitedSource)
  raw_facts : Option (List RawFactGroup)
  perspectives : Option (List Perspective)
  conflicting_info : Option (List Conflict)
deriving DecidableEq, Repr

/-- Quote set collected by deduplicate_conflicting_quotes from the other
sections (main.py:1306-1331): quoted substrings of every raw fact, the quote
and conflict_quote fields of every perspective, and quoted substrings of every
timeline description; an absent section contributes nothing. -/
def existingQuotes (r : ReportDraft) : List String :=
  ((r.raw_facts.getD []).map (fun g => (g.facts.map extractQuotes).flatten)).flatten
    ++ ((r.perspectives.getD []).map
        (fun p => p.quote.toList ++ p.conflict_quote.toList)).flatten
    ++ ((r.timeline_items.getD []).map (fun t => extractQuotes t.description)).flatten

/-- Entry loop of deduplicate_conflicting_quotes (main.py:1334-1363): walk the
entries in order, keep an entry when neither of its quotes is among the other
sections' quotes or the quotes already kept and neither of its source names is
among the names already kept, and extend the accumulators with both quotes and
both names of a kept entry. -/
def dedupGo (existing : List String) :
    List Conflict → List String → List String → List Conflict
  | [], _, _ => []
  | c :: rest, usedQ, usedS =>
    if c.source_a.quote ∉ existing ∧ c.source_b.quote ∉ existing ∧
        c.source_a.quote ∉ usedQ ∧ c.source_b.quote ∉ usedQ ∧
        c.source_a.name ∉ usedS ∧ c.source_b.name ∉ usedS then
      c :: dedupGo existing rest
        (c.source_a.quote :: c.source_b.quote :: usedQ)
        (c.source_a.name :: c.source_b.name :: usedS)
    else
      dedupGo existing rest usedQ usedS

/-- deduplicate_conflicting_quotes (main.py:1296-1367) on a well-typed entry
list (the isinstance guard passes; on an empty list the guard returns the list
unchanged, which coincides with the loop's result). -/
def deduplicate_conflicting_quotes (data : List Conflict) (r : ReportDraft) :
    List Conflict :=
  dedupGo (existingQuotes r) data [] []

/-- Quote list collected by validate_conflicting_info_quotes
(main.py:1381-1394); empty strings are skipped by the truthiness tests. -/
def conflictQuoteList (data : List Conflict) : List String :=
  (data.map (fun c =>
    (if c.source_a.quote ≠ "" then [c.source_a.quote] else []) ++
    (if c.source_b.quote ≠ "" then [c.source_b.quote] else []))).flatten

/-- Source-name list collected by validate_conflicting_info_quotes
(main.py:1381-1394). -/
def conflictSourceList (data : List Conflict) : List String :=
  (data.map (fun c =>
    (if c.source_a.name ≠ "" then [c.source_a.name] else []) ++
    (if c.source_b.name ≠ "" then [c.source_b.name] else []))).flatten

/-- validate_conflicting_info_quotes (main.py:1369-1409): an empty list is
reported invalid by the leading truthiness guard; otherwise the pass succeeds
exactly when the duplicate counts len(all) - len(set) are zero for both the
quotes and the source names. -/
def validate_conflicting_info_quotes (data : List Conflict) : Bool :=
  if data = [] then false
  else
    decide ((conflictQuoteList data).length - (conflictQuoteList data).dedup.length = 0 ∧
      (conflictSourceList data).length - (conflictSourceList data).dedup.length = 0)

/-- Accumulator of the specification's deduplication walk: the entries kept so
far together with the usedQuotes and usedSourceNames sets. -/
structure DedupState where
  kept : List Conflict
  usedQuotes : List String
  usedSourceNames : List String
deriving DecidableEq, Repr

/-- Transcribed from the specification sentence for one entry of the walk
(spec section 4.4 step 3): keep the entry iff none of its two quotes is in
U together with usedQuotes and neither of its two source names is in
usedSourceNames; on keep append the entry and add both quotes and both names;
on reject drop the entry entirely. -/
def dedupSpecStep (U : List String) (st : DedupState) (c : Conflict) : DedupState :=
  if c.source_a.quote ∈ U ++ st.usedQuotes ∨ c.source_b.quote ∈ U ++ st.usedQuotes ∨
      c.source_a.name ∈ st.usedSourceNames ∨ c.source_b.name ∈ st.usedSourceNames then
    st
  else
    { kept := st.kept ++ [c],
      usedQuotes := st.usedQuotes ++ [c.source_a.quote, c.source_b.quote],
      usedSourceNames := st.usedSourceNames ++ [c.source_a.name, c.source_b.name] }

/-- Transcribed from the specification of the deduplication walk (spec section
4.4 steps 2 and 3): fold over the entries in their original order starting from
empty accumulators. -/
def dedupSpec (U : List String) (data : List Conflict) : List Conflict :=
  (data.foldl (dedupSpecStep U) ⟨[], [], []⟩).kept

theorem dedupGo_sublist (existing : List String) :
    ∀ (l : List Conflict) (usedQ usedS : List String),
      List.Sublist (dedupGo existing l usedQ usedS) l := by
  intro l
  induction l with
  | nil => intro usedQ usedS; simp [dedupGo]
  | cons c rest ih =>
    intro usedQ usedS
    rw [dedupGo]
    split
    · exact List.Sublist.cons₂ c (ih _ _)
    · exact List.Sublist.cons c (ih _ _)

theorem dedupSpec_foldl_eq (U : List String) :
    ∀ (l : List Conflict) (acc : List Conflict) (q q' n n' : List String),
      (∀ x, x ∈ q ↔ x ∈ q') → (∀ x, x ∈ n ↔ x ∈ n') →
      (l.foldl (dedupSpecStep U) ⟨acc, q', n'⟩).kept = acc ++ dedupGo U l q n := by
  intro l
  induction l with
  | nil => intro acc q q' n n' _ _; simp [dedupGo]
  | cons c rest ih =>
    intro acc q q' n n' hq hn
    rw [List.foldl_cons, dedupGo]
    by_cases hkeep : c.source_a.quote ∉ U ∧ c.source_b.quote ∉ U ∧
        c.source_a.quote ∉ q ∧ c.source_b.quote ∉ q ∧
        c.source_a.name ∉ n ∧ c.source_b.name ∉ n
    · rw [if_pos hkeep]
      have hnot : ¬ (c.source_a.quote ∈ U ++ q' ∨ c.source_b.quote ∈ U ++ q' ∨
          c.source_a.name ∈ n' ∨ c.source_b.name ∈ n') := by
        simp only [List.mem_append, not_or]
        exact ⟨⟨hkeep.1, fun h => hkeep.2.2.1 ((hq _).mpr h)⟩,
          ⟨hkeep.2.1, fun h => hkeep.2.2.2.1 ((hq _).mpr h)⟩,
          fun h => hkeep.2.2.2.2.1 ((hn _).mpr h),
          fun h => hkeep.2.2.2.2.2 ((hn _).mpr h)⟩
      have hstep : dedupSpecStep U ⟨acc, q', n'⟩ c =
          ⟨acc ++ [c], q' ++ [c.source_a.quote, c.source_b.quote],
            n' ++ [c.source_a.name, c.source_b.name]⟩ := by
        unfold dedupSpecStep
        rw [if_neg hnot]
      rw [hstep]
      rw [ih (acc ++ [c]) (c.source_a.quote :: c.source_b.quote :: q)
        (q' ++ [c.source_a.quote, c.source_b.quote])
        (c.source_a.name :: c.source_b.name :: n)
        (n' ++ [c.source_a.name, c.source_b.name]) ?_ ?_]
      · simp
      · intro x
        simp only [List.mem_cons, List.mem_append, List.mem_singleton,
          List.not_mem_nil, or_false, hq x]
        tauto
      · intro x
        simp only [List.mem_cons, List.mem_append, List.mem_singleton,
          List.not_mem_nil, or_false, hn x]
        tauto
    · rw [if_neg hkeep]
      have hstep : dedupSpecStep U ⟨acc, q', n'⟩ c = ⟨acc, q', n'⟩ := by
        unfold dedupSpecStep
        rw [if_pos]
        push_neg at hkeep
        by_cases h1 : c.source_a.quote ∈ U
        · left; exact List.mem_append.mpr (Or.inl h1)
        by_cases h2 : c.source_b.quote ∈ U
        · right; left; exact List.mem_append.mpr (Or.inl h2)
        by_cases h3 : c.source_a.quote ∈ q
        · left; exact List.mem_append.mpr (Or.inr ((hq _).mp h3))
        by_cases h4 : c.source_b.quote ∈ q
        · right; left; exact List.mem_append.mpr (Or.inr ((hq _).mp h4))
        by_cases h5 : c.source_a.name ∈ n
        · right; right; left; exact (hn _).mp h5
        have h6 := hkeep h1 h2 h3 h4 h5
        right; right; right; exact (hn _).mp h6
      rw [hstep, ih acc q q' n n' hq hn]

/-- The claim C2 describes deduplicate_conflicting_quotes as a left-to-right
walk keeping an entry iff its quotes avoid the other sections' quotes and the
quotes already kept and its names avoid the names already kept, adding both
quotes and both names of each kept entry, with the output a subsequence of the
input consisting of unmodified entries.  The implementation coincides with the
transcription of that walk and its output is a sublist of the input. -/
theorem C2_dedup_walk_correct (data : List Conflict) (r : ReportDraft) :
    deduplicate_conflicting_quotes data r = dedupSpec (existingQuotes r) data ∧
    List.Sublist (deduplicate_conflicting_quotes data r) data := by
  constructor
  · rw [deduplicate_conflicting_quotes, dedupSpec,
      dedupSpec_foldl_eq (existingQuotes r) data [] [] [] [] []
        (fun x => Iff.rfl) (fun x => Iff.rfl)]
    simp
  · exact dedupGo_sublist _ _ _ _

/-- A conflicting_info entry whose two sides carry one and the same quote. -/
def conflictSameQuote : Conflict :=
  { article_id := 0, conflict := "conflict about X",
    source_a := { name := "Source A", quote := "the shared quote" },
    source_b := { name := "Source B", quote := "the shared quote" } }

/-- A research_report dictionary with no other sections present. -/
def emptyDraft : ReportDraft :=
  { article := none, executive_summary := none, timeline_items := none,
    cited_sources := none, raw_facts := none, perspectives := none,
    conflicting_info := none }

/-- The claim C1 asserts that after deduplicate_conflicting_quotes the quotes
are pairwise disjoint including the two sides of one and the same entry.  The
loop never compares source_a against source_b of the entry under examination,
so an entry quoting the same text on both sides is kept, and the code's own
validation pass validate_conflicting_info_quotes reports failure on the
deduplicated output. -/
theorem C1_same_entry_duplicate_kept :
    deduplicate_conflicting_quotes [conflictSameQuote] emptyDraft = [conflictSameQuote] ∧
    conflictSameQuote.source_a.quote = conflictSameQuote.source_b.quote ∧
    validate_conflicting_info_quotes
      (deduplicate_conflicting_quotes [conflictSameQuote] emptyDraft) = false := by
  refine ⟨by decide, by decide, by decide⟩

/-- ASCII lowering as performed by str.lower on the characters this backend
manipulates: the codepoints of A through Z are shifted up by 32, every other
character is unchanged. -/
def pyLowerChar (c : Char) : Char :=
  if 65 ≤ c.toNat ∧ c.toNat ≤ 90 then Char.ofNat (c.toNat + 32) else c

/-- str.lower applied to a whole string. -/
def pyLower (s : String) : String := String.mk (s.data.map pyLowerChar)

/-- str.replace of every space by a hyphen. -/
def spaceToHyphen (s : String) : String :=
  String.mk (s.data.map (fun c => if c = spaceChar then hyphen else c))

/-- str.replace of every double quotation mark by the empty string. -/
def dropDQuotes (s : String) : String :=
  String.mk (s.data.filter (fun c => c ≠ dquote))

/-- Character class kept by re.sub applied with the pattern deleting every
character other than a lowercase ASCII letter, a digit or a hyphen
(main.py:126, 1559, 1684, 1814). -/
def slugKeep (c : Char) : Bool :=
  decide ((97 ≤ c.toNat ∧ c.toNat ≤ 122) ∨ (48 ≤ c.toNat ∧ c.toNat ≤ 57) ∨ c = hyphen)

/-- Slug derivation as written at main.py:125-126 (queue_article_generation)
and main.py:1558-1559 (research): lowercase, spaces to hyphens, double quotes
removed, then every character outside the slug class deleted. -/
def slugify (s : String) : String :=
  String.mk ((dropDQuotes (spaceToHyphen (pyLower s))).data.filter slugKeep)

/-- str.strip of leading and trailing spaces, used only to state trimming. -/
def pyStrip (s : String) : String :=
  String.mk (((s.data.dropWhile (fun c => c = spaceChar)).reverse.dropWhile
    (fun c => c = spaceChar)).reverse)

/-- A queue entry: the topic dictionary after queue_article_generation has
stored its slug and force_research flag (main.py:137-138). -/
structure QueuedTopic where
  headline : String
  slug : String
  force_research : Bool
deriving DecidableEq, Repr

/-- The process-wide article cache (modelled by its slug set) and the article
generation queue (main.py:64, 73). -/
structure QueueState where
  cache : List String
  queue : List QueuedTopic
deriving DecidableEq, Repr

/-- Body of the topic loop in queue_article_generation (main.py:123-139): a
topic is collected when its slug is uncached (or force is set) and no entry of
the queue as it stood before the call carries the same slug; the newly
collected topics themselves are not consulted by the already_queued test. -/
def buildNewTopics (cache : List String) (queue : List QueuedTopic) (force : Bool) :
    List String → List QueuedTopic
  | [] => []
  | h :: rest =>
    if (force = true ∨ slugify h ∉ cache) ∧ (∀ t ∈ queue, t.slug ≠ slugify h) then
      ⟨h, slugify h, force⟩ :: buildNewTopics cache queue force rest
    else
      buildNewTopics cache queue force rest

/-- queue_article_generation (main.py:117-148) restricted to its queue effect:
the collected topics are appended to the queue under the lock.  Starting the
background worker does not modify the queue or the cache. -/
def queue_article_generation (topics : List String) (force : Bool)
    (st : QueueState) : QueueState :=
  { st with queue := st.queue ++ buildNewTopics st.cache st.queue force topics }

/-- N successive calls of queue_article_generation on the same single unforced
topic. -/
def enqueueTimes (h : String) : Nat → QueueState → QueueState
  | 0, st => st
  | n + 1, st => enqueueTimes h n (queue_article_generation [h] false st)

/-- Number of queued generation jobs whose slug is s. -/
def jobCount (st : QueueState) (s : String) : Nat :=
  st.queue.countP (fun t => decide (t.slug = s))

theorem buildNewTopics_skip (cache : List String) (queue : List QueuedTopic)
    (h : String) (hpre : slugify h ∈ cache ∨ ∃ t ∈ queue, t.slug = slugify h) :
    buildNewTopics cache queue false [h] = [] := by
  rw [buildNewTopics]
  rw [if_neg]
  · rw [buildNewTopics]
  · rintro ⟨hc, hq⟩
    rcases hpre with hmem | ⟨t, ht, hts⟩
    · rcases hc with hfalse | hnot
      · exact Bool.false_ne_true hfalse
      · exact hnot hmem
    · exact hq t ht hts

theorem enqueue_noop (st : QueueState) (h : String)
    (hpre : slugify h ∈ st.cache ∨ 0 < jobCount st (slugify h)) :
    queue_article_generation [h] false st = st := by
  have hpre' : slugify h ∈ st.cache ∨ ∃ t ∈ st.queue, t.slug = slugify h := by
    rcases hpre with hc | hq
    · exact Or.inl hc
    · refine Or.inr ?_
      rw [jobCount, List.countP_pos_iff] at hq
      obtain ⟨t, ht, hts⟩ := hq
      exact ⟨t, ht, of_decide_eq_true hts⟩
  rw [queue_article_generation, buildNewTopics_skip st.cache st.queue h hpre']
  simp

theorem enqueueTimes_noop (st : QueueState) (h : String) (n : Nat)
    (hpre : slugify h ∈ st.cache ∨ 0 < jobCount st (slugify h)) :
    enqueueTimes h n st = st := by
  induction n with
  | zero => rfl
  | succ m ih =>
    have hstep : enqueueTimes h (m + 1) st =
        enqueueTimes h m (queue_article_generation [h] false st) := rfl
    rw [hstep, enqueue_noop st h hpre, ih]

theorem enqueue_fresh (st : QueueState) (h : String)
    (hnc : slugify h ∉ st.cache) (hcnt : jobCount st (slugify h) = 0) :
    queue_article_generation [h] false st =
      { st with queue := st.queue ++ [⟨h, slugify h, false⟩] } := by
  have hall : ∀ t ∈ st.queue, t.slug ≠ slugify h := by
    intro t ht
    rw [jobCount, List.countP_eq_zero] at hcnt
    have := hcnt t ht
    simpa using this
  rw [queue_article_generation, buildNewTopics, if_pos ⟨Or.inr hnc, hall⟩,
    buildNewTopics]

/-- The claim C3 asserts that enqueueing the same unforced topic N times while
a generation job for its slug is queued or its report is cached creates no
further job, and that from a state with the slug neither cached nor queued the
N calls create exactly one job for that slug in total. -/
theorem C3_at_most_one_job (st : QueueState) (h : String) (n : Nat) :
    ((slugify h ∈ st.cache ∨ 0 < jobCount st (slugify h)) →
      jobCount (enqueueTimes h n st) (slugify h) = jobCount st (slugify h)) ∧
    ((slugify h ∉ st.cache ∧ jobCount st (slugify h) = 0 ∧ 0 < n) →
      jobCount (enqueueTimes h n st) (slugify h) = 1) := by
  constructor
  · intro hpre
    rw [enqueueTimes_noop st h n hpre]
  · rintro ⟨hnc, hcnt, hn⟩
    obtain ⟨m, rfl⟩ : ∃ m, n = m + 1 := ⟨n - 1, (Nat.succ_pred_eq_of_pos hn).symm⟩
    have hstep : enqueueTimes h (m + 1) st =
        enqueueTimes h m (queue_article_generation [h] false st) := rfl
    rw [hstep, enqueue_fresh st h hnc hcnt]
    have hone : jobCount { st with queue := st.queue ++ [⟨h, slugify h, false⟩] }
        (slugify h) = 1 := by
      rw [jobCount] at hcnt ⊢
      simp [List.countP_append, hcnt]
    rw [enqueueTimes_noop _ h m (Or.inr (by rw [hone]; exact Nat.one_pos)), hone]

/-- Witness for C3: from the empty state, two enqueues of one topic leave
exactly one queued job for its slug. -/
theorem C3_witness :
    (slugify "abc" ∉ (⟨[], []⟩ : QueueState).cache ∧
      jobCount ⟨[], []⟩ (slugify "abc") = 0 ∧ 0 < 2) ∧
    jobCount (enqueueTimes "abc" 2 ⟨[], []⟩) (slugify "abc") = 1 := by
  refine ⟨⟨by decide, by decide, by decide⟩, ?_⟩
  exact (C3_at_most_one_job ⟨[], []⟩ "abc" 2).2 ⟨by decide, by decide, by decide⟩

/-- The claim C6 asserts that two queries equal after trimming and
case-normalization map to the same slug: false, because the derivation never
trims, so a leading or trailing space survives as a hyphen (which the final
character class keeps). -/
theorem C6_counterexample :
    pyStrip " abc " = pyStrip "abc" ∧ slugify " abc " ≠ slugify "abc" := by
  refine ⟨by decide, by decide⟩

theorem filter_replicate_self {p : Char → Bool} {a : Char} (h : p a = true)
    (n : Nat) : List.filter p (List.replicate n a) = List.replicate n a := by
  induction n with
  | zero => rfl
  | succ m ih => simp [List.replicate_succ, List.filter_cons, h, ih]

theorem slugify_replicate_a (n : Nat) :
    slugify (String.mk (List.replicate n (Char.ofNat 97))) =
      String.mk (List.replicate n (Char.ofNat 97)) := by
  have h1 : pyLowerChar (Char.ofNat 97) = Char.ofNat 97 := by decide
  have h2 : (if Char.ofNat 97 = spaceChar then hyphen else Char.ofNat 97) =
      Char.ofNat 97 := by decide
  have h3 : (fun c => decide (c ≠ dquote)) (Char.ofNat 97) = true := by decide
  have h4 : slugKeep (Char.ofNat 97) = true := by decide
  rw [slugify, dropDQuotes, spaceToHyphen, pyLower]
  simp only [List.map_replicate, h1, h2]
  rw [filter_replicate_self h3 n, filter_replicate_self h4 n]

/-- Amendment of C6 forced by the counterexample: the slug is a deterministic
pure function of the query text, every character of its output lies in the
class of lowercase letters, digits and hyphens (so it is lowercase, URL-safe
and punctuation-stripped), and queries equal after case-normalization alone
map to the same slug; but whitespace is not trimmed, and no constant length
bound exists since an all-lowercase-alphanumeric query of length n yields a
slug of length n. -/
theorem C6_amended (q1 q2 : String) (n : Nat)
    (hlow : pyLower q1 = pyLower q2) :
    slugify q1 = slugify q2 ∧
    (∀ c ∈ (slugify q1).data, slugKeep c = true) ∧
    (slugify (String.mk (List.replicate n (Char.ofNat 97)))).data.length = n := by
  refine ⟨?_, ?_, ?_⟩
  · rw [slugify, slugify, hlow]
  · intro c hc
    rw [slugify] at hc
    exact List.of_mem_filter hc
  · rw [slugify_replicate_a]
    simp

/-- Witness for C6's amended statement at a concrete pair of queries differing
only in letter case. -/
theorem C6_amended_witness :
    pyLower "AbC d" = pyLower "abc D" ∧ slugify "AbC d" = slugify "abc D" := by
  refine ⟨by decide, (C6_amended "AbC d" "abc D" 0 (by decide)).1⟩

/-- Result of one invocation of the function wrapped by with_rate_limit_retry:
a normal return, a RateLimitError carrying the provider-suggested wait parsed
from its message when the message contains one (main.py:96-99), or any other
exception. -/
inductive CallResult (α : Type) where
  | ok (a : α)
  | rateLimited (suggested : Option ℚ)
  | fatalErr
deriving DecidableEq, Repr

/-- Outcome of with_rate_limit_retry: a returned value, the RateLimitError
re-raised after the last attempt, another exception propagated immediately, or
the fall-through None return of a zero-iteration loop. -/
inductive RunOutcome (α : Type) where
  | success (a : α)
  | rateLimitExceeded
  | fatalError
  | exhausted
deriving DecidableEq, Repr

/-- Total wait computed after a failed attempt (main.py:93-103): the
exponential term base_delay * 2 ^ attempt, raised to the provider-suggested
wait when one was parsed, plus the jitter drawn for this attempt. -/
def backoffDelay (base : ℚ) (attempt : Nat) (suggested : Option ℚ) (jit : ℚ) : ℚ :=
  (match suggested with
   | some s => max (base * 2 ^ attempt) s
   | none => base * 2 ^ attempt) + jit

/-- The attempt loop of with_rate_limit_retry (main.py:83-112), with the fuel
argument counting the remaining loop iterations (max_retries - attempt).  The
returned triple is the outcome, the number of attempts made, and the list of
waits slept between attempts in order. -/
def retryGo {α : Type} (fn : Nat → CallResult α) (maxRetries : Nat) (base : ℚ)
    (jit : Nat → ℚ) : Nat → Nat → RunOutcome α × Nat × List ℚ
  | _, 0 => (RunOutcome.exhausted, 0, [])
  | attempt, fuel + 1 =>
    match fn attempt with
    | CallResult.ok a => (RunOutcome.success a, 1, [])
    | CallResult.fatalErr => (RunOutcome.fatalError, 1, [])
    | CallResult.rateLimited s =>
      if attempt = maxRetries - 1 then (RunOutcome.rateLimitExceeded, 1, [])
      else
        let r := retryGo fn maxRetries base jit (attempt + 1) fuel
        (r.1, r.2.1 + 1, backoffDelay base attempt s (jit attempt) :: r.2.2)

/-- with_rate_limit_retry (main.py:78-114): run the loop from attempt 0 with
max_retries iterations available. -/
def with_rate_limit_retry {α : Type} (fn : Nat → CallResult α) (maxRetries : Nat)
    (base : ℚ) (jit : Nat → ℚ) : RunOutcome α × Nat × List ℚ :=
  retryGo fn maxRetries base jit 0 maxRetries

theorem retryGo_always_rateLimited (sugg : Nat → Option ℚ) (maxRetries : Nat)
    (base : ℚ) (jit : Nat → ℚ) :
    ∀ (fuel attempt : Nat), attempt + fuel = maxRetries → 0 < fuel →
      retryGo (fun k => (CallResult.rateLimited (sugg k) : CallResult Unit))
          maxRetries base jit attempt fuel =
        (RunOutcome.rateLimitExceeded, fuel,
          (List.range' attempt (fuel - 1)).map
            (fun k => backoffDelay base k (sugg k) (jit k))) := by
  intro fuel
  induction fuel with
  | zero => intro attempt _ hpos; exact absurd hpos (by omega)
  | succ f ih =>
    intro attempt htot _
    rw [retryGo]
    dsimp only
    cases f with
    | zero =>
      have hlast : attempt = maxRetries - 1 := by omega
      rw [if_pos hlast]
      simp
    | succ f2 =>
      have hnotlast : ¬ attempt = maxRetries - 1 := by omega
      rw [if_neg hnotlast]
      rw [ih (attempt + 1) (by omega) (by omega)]
      simp only [Nat.succ_sub_one]
      rw [List.range'_succ]
      simp

/-- Amendment of C4 forced by the counterexample: for a function that raises a
rate-limit error on every attempt, the wrapper makes exactly maxRetries
attempts and then propagates the rate-limit error, and the wait before retrying
attempt k equals max(baseDelay * 2^k, provider-suggested delay) plus the jitter
for that attempt; the delay sequence is non-decreasing and bounded by
baseDelay * 2^maxRetries plus the maximal jitter only under the additional
premises that every provider-suggested delay is at most its exponential term
and that baseDelay is at least 2/5 (0.4 s). -/
theorem C4_amended (maxRetries : Nat) (base : ℚ) (sugg : Nat → Option ℚ)
    (jit : Nat → ℚ) (hmr : 1 ≤ maxRetries) :
    (with_rate_limit_retry (fun k => (CallResult.rateLimited (sugg k) : CallResult Unit))
        maxRetries base jit).1 = RunOutcome.rateLimitExceeded ∧
    (with_rate_limit_retry (fun k => (CallResult.rateLimited (sugg k) : CallResult Unit))
        maxRetries base jit).2.1 = maxRetries ∧
    (with_rate_limit_retry (fun k => (CallResult.rateLimited (sugg k) : CallResult Unit))
        maxRetries base jit).2.2 =
      (List.range (maxRetries - 1)).map (fun k => backoffDelay base k (sugg k) (jit k)) ∧
    ((∀ k s, sugg k = some s → s ≤ base * 2 ^ k) → (2/5 : ℚ) ≤ base →
      (∀ k, 1/10 ≤ jit k ∧ jit k ≤ 1/2) →
      List.Chain' (fun a b => a ≤ b)
        ((with_rate_limit_retry
          (fun k => (CallResult.rateLimited (sugg k) : CallResult Unit))
          maxRetries base jit).2.2) ∧
      ∀ d ∈ (with_rate_limit_retry
          (fun k => (CallResult.rateLimited (sugg k) : CallResult Unit))
          maxRetries base jit).2.2, d ≤ base * 2 ^ maxRetries + 1/2) := by
  have hrun := retryGo_always_rateLimited sugg maxRetries base jit maxRetries 0
    (by omega) (by omega)
  have hrw : (with_rate_limit_retry
      (fun k => (CallResult.rateLimited (sugg k) : CallResult Unit))
      maxRetries base jit) =
      (RunOutcome.rateLimitExceeded, maxRetries,
        (List.range (maxRetries - 1)).map
          (fun k => backoffDelay base k (sugg k) (jit k))) := by
    rw [with_rate_limit_retry, hrun, List.range_eq_range']
  refine ⟨by rw [hrw], by rw [hrw], by rw [hrw], ?_⟩
  intro hsugg hbase hjit
  have hbase0 : (0 : ℚ) ≤ base := le_trans (by norm_num) hbase
  have hdelay : ∀ k, backoffDelay base k (sugg k) (jit k) = base * 2 ^ k + jit k := by
    intro k
    cases hk : sugg k with
    | none => simp [backoffDelay, hk]
    | some s => simp [backoffDelay, hk, max_eq_left (hsugg k s hk)]
  have hmono : ∀ m : Nat, base * 2 ^ m + jit m ≤ base * 2 ^ (m + 1) + jit (m + 1) := by
    intro m
    have h2m : (1 : ℚ) ≤ 2 ^ m := by
      have hp := pow_le_pow_right₀ (by norm_num : (1 : ℚ) ≤ 2) (Nat.zero_le m)
      simpa using hp
    have hb2 : base ≤ base * 2 ^ m := by nlinarith
    have hpow : base * 2 ^ (m + 1) = base * 2 ^ m + base * 2 ^ m := by ring
    have hj1 := (hjit m).2
    have hj2 := (hjit (m + 1)).1
    nlinarith
  rw [hrw]
  constructor
  · rw [List.chain'_map]
    cases hcase : maxRetries - 1 with
    | zero => simp
    | succ t =>
      rw [List.chain'_range_succ]
      intro m _
      rw [hdelay m, hdelay (m + 1)]
      exact hmono m
  · intro d hd
    rw [List.mem_map] at hd
    obtain ⟨k, hk, rfl⟩ := hd
    rw [List.mem_range] at hk
    rw [hdelay k]
    have hkm : k ≤ maxRetries := by omega
    have h2 : (2 : ℚ) ^ k ≤ 2 ^ maxRetries :=
      pow_le_pow_right₀ (by norm_num) hkm
    have hj := (hjit k).2
    nlinarith

/-- Witness for C4's amended statement: with two retries, base delay 2 and
constant jitter 1/4, an always-rate-limited call makes exactly two attempts. -/
theorem C4_amended_witness :
    1 ≤ 2 ∧
    (with_rate_limit_retry (fun _ => (CallResult.rateLimited none : CallResult Unit))
        2 2 (fun _ => 1/4)).2.1 = 2 := by
  exact ⟨by decide, (C4_amended 2 2 (fun _ => none) (fun _ => 1/4) (by decide)).2.1⟩

/-- Suggested-delay sequence of the counterexample to C4: the provider asks for
a 100 second wait on the first failure and suggests nothing afterwards. -/
def c4sugg : Nat → Option ℚ := fun k => if k = 0 then some 100 else none

/-- The claim C4 asserts the observed delay sequence is non-decreasing and
bounded by baseDelay * 2^maxRetries plus jitter: false, because a large
provider-suggested delay on the first attempt dominates both its successor and
the claimed bound (jitter is the constant 3/10, inside the claimed range). -/
theorem C4_counterexample :
    ((1 : ℚ)/10 ≤ 3/10 ∧ (3 : ℚ)/10 ≤ 1/2) ∧
    (with_rate_limit_retry (fun k => (CallResult.rateLimited (c4sugg k) : CallResult Unit))
        3 2 (fun _ => 3/10)).2.2 = [100 + 3/10, 4 + 3/10] ∧
    ¬ List.Chain' (fun a b => a ≤ b)
      ((with_rate_limit_retry (fun k => (CallResult.rateLimited (c4sugg k) : CallResult Unit))
        3 2 (fun _ => 3/10)).2.2) ∧
    ¬ (∀ d ∈ (with_rate_limit_retry
        (fun k => (CallResult.rateLimited (c4sugg k) : CallResult Unit))
        3 2 (fun _ => 3/10)).2.2, d ≤ 2 * 2 ^ 3 + 1/2) := by
  have hlist : (with_rate_limit_retry
      (fun k => (CallResult.rateLimited (c4sugg k) : CallResult Unit))
      3 2 (fun _ => 3/10)).2.2 = [100 + 3/10, 4 + 3/10] := by
    rw [with_rate_limit_retry, retryGo]
    norm_num [retryGo, backoffDelay, c4sugg]
  refine ⟨⟨by norm_num, by norm_num⟩, hlist, ?_, ?_⟩
  · rw [hlist]
    intro hchain
    have := List.chain'_cons.mp hchain
    norm_num at this
  · rw [hlist]
    intro hall
    have := hall (100 + 3/10) (by simp)
    norm_num at this

/-- The validated report (schemas.py:64-70).  ResearchReport has no
conflicting_info field, so pydantic validation drops that key. -/
structure ResearchReport where
  article : Article
  executive_summary : ExecSummary
  timeline_items : List TimelineItem
  cited_sources : List CitedSource
  raw_facts : List RawFactGroup
  perspectives : List Perspective
deriving DecidableEq, Repr

/-- ResearchReport.model_validate (main.py:390, 1580): validation succeeds
exactly when every required key is present with a well-typed value (the
embedding carries well-typed payloads, so key presence is the proposition
validation decides; present empty lists are valid for pydantic). -/
def model_validate (d : ReportDraft) : Option ResearchReport :=
  match d.article, d.executive_summary, d.timeline_items, d.cited_sources,
      d.raw_facts, d.perspectives with
  | some a, some e, some t, some c, some r, some p => some ⟨a, e, t, c, r, p⟩
  | _, _, _, _, _, _ => none

/-- Python truthiness test applied to an optional list-valued key
(main.py:314, 328, 342, 353): the key is absent or its list is empty. -/
def missingOrEmpty {α : Type} (o : Option (List α)) : Bool :=
  match o with
  | none => true
  | some l => l.isEmpty

/-- Article field assignment of generate_article_for_topic (main.py:286-299):
slug, id, read_time, source_count, published_at, category and author fields
are written when the article key is present. -/
def setArticleFields (aid : Nat) (slug pubAt category : String) (srcCount : Nat)
    (d : ReportDraft) : ReportDraft :=
  { d with article := d.article.map (fun a =>
      { a with
        slug := slug, id := aid, read_time := 5, source_count := srcCount,
        published_at := pubAt, category := category,
        author_name := some "AI Agent", author_title := some "Research Specialist" }) }

/-- Stamping loop (main.py:301-308, 1570-1576): every element of every present
list-valued section and the executive_summary dictionary receive the run's
article_id. -/
def stampSections (aid : Nat) (d : ReportDraft) : ReportDraft :=
  { d with
    executive_summary := d.executive_summary.map (fun s => { s with article_id := aid }),
    timeline_items := d.timeline_items.map (fun l =>
      l.map (fun x => { x with article_id := aid })),
    cited_sources := d.cited_sources.map (fun l =>
      l.map (fun x => { x with article_id := aid })),
    raw_facts := d.raw_facts.map (fun l =>
      l.map (fun x => { x with article_id := aid })),
    perspectives := d.perspectives.map (fun l =>
      l.map (fun x => { x with article_id := aid })),
    conflicting_info := d.conflicting_info.map (fun l =>
      l.map (fun x => { x with article_id := aid })) }

/-- Fallback timeline item (main.py:316-323). -/
def fallbackTimeline (aid : Nat) (q now : String) : TimelineItem :=
  { article_id := aid, date := now, title := "Research Initiated",
    description := "Research on \"" ++ q ++ "\" was initiated",
    type := "research_start", source_label := "AI Research Agent" }

/-- Fallback cited source (main.py:330-337). -/
def fallbackCitedSource (aid : Nat) : CitedSource :=
  { article_id := aid, name := "Research Sources", type := "web_search",
    description := "Various web sources consulted during research",
    url := "https://example.com/research-sources", image_url := none }

/-- Fallback raw-fact group (main.py:344-348). -/
def fallbackRawFacts (aid : Nat) (q : String) : RawFactGroup :=
  { article_id := aid, category := "research",
    facts := ["Research was conducted on \"" ++ q ++ "\""] }

/-- Fallback perspective (main.py:355-361). -/
def fallbackPerspective (aid : Nat) (q : String) : Perspective :=
  { article_id := aid, viewpoint := "Research Summary",
    description := "Analysis of \"" ++ q ++ "\" based on available sources",
    source := some "AI Research Agent", quote := none, conflict_quote := none,
    color := "blue" }

/-- Fallback executive summary (main.py:368-375). -/
def fallbackSummary (aid : Nat) (q : String) : ExecSummary :=
  { article_id := aid,
    points := ["Research conducted on " ++ q,
      "Analysis based on current available sources",
      "Comprehensive review of relevant information"] }

/-- Placeholder synthesis of generate_article_for_topic (main.py:310-377): a
missing or empty list section and a missing executive_summary are replaced by
the corresponding fallback referencing the topic headline; the article key has
no fallback branch. -/
def ensureSections (aid : Nat) (q now : String) (d : ReportDraft) : ReportDraft :=
  { d with
    timeline_items := if missingOrEmpty d.timeline_items then
      some [fallbackTimeline aid q now] else d.timeline_items,
    cited_sources := if missingOrEmpty d.cited_sources then
      some [fallbackCitedSource aid] else d.cited_sources,
    raw_facts := if missingOrEmpty d.raw_facts then
      some [fallbackRawFacts aid q] else d.raw_facts,
    perspectives := if missingOrEmpty d.perspectives then
      some [fallbackPerspective aid q] else d.perspectives,
    executive_summary := if d.executive_summary.isNone then
      some (fallbackSummary aid q) else d.executive_summary }

/-- Assembly tail of generate_article_for_topic (main.py:286-394): article
field assignment, section stamping, fallback synthesis, the required-section
check (which, after the fallbacks, can only fail for the article key, raising
ValueError), and schema validation; every raised error is caught by the
enclosing handler, which returns None. -/
def assembleTopicReport (aid : Nat) (q slug pubAt category now : String)
    (srcCount : Nat) (d : ReportDraft) : Option ResearchReport :=
  model_validate
    (ensureSections aid q now
      (stampSections aid (setArticleFields aid slug pubAt category srcCount d)))

/-- Assembly tail of the research endpoint (main.py:1554-1593): the article
slug is derived from its title, the fields are assigned and the sections
stamped; there is no fallback synthesis, and a validation failure raises an
HTTP 500 instead of caching a report. -/
def assembleResearchReport (aid : Nat) (srcCount : Nat) (d : ReportDraft) :
    Option ResearchReport :=
  model_validate
    (stampSections aid
      { d with article := d.article.map (fun a =>
        { a with
          slug := slugify a.title, id := aid, read_time := 5,
          source_count := srcCount, published_at := "2024-01-01T00:00:00Z",
          category := "Research", author_name := some "AI Agent",
          author_title := some "Research Specialist" }) })

theorem ensureList {α : Type} (o : Option (List α)) (fb : α) :
    ∃ l, (if missingOrEmpty o then some [fb] else o) = some l ∧ l ≠ [] ∧
      (missingOrEmpty o = true → l = [fb]) := by
  match o with
  | none => exact ⟨[fb], by simp [missingOrEmpty], by simp, fun _ => rfl⟩
  | some [] => exact ⟨[fb], by simp [missingOrEmpty], by simp, fun _ => rfl⟩
  | some (x :: xs) =>
    refine ⟨x :: xs, by simp [missingOrEmpty], by simp, ?_⟩
    intro hm
    simp [missingOrEmpty] at hm

theorem ensureSummary (o : Option ExecSummary) (fb : ExecSummary) :
    ∃ e, (if o.isNone then some fb else o) = some e ∧ (o = none → e = fb) := by
  match o with
  | none => exact ⟨fb, by simp, fun _ => rfl⟩
  | some s => exact ⟨s, by simp, fun h => by simp at h⟩

theorem missingOrEmpty_map {α β : Type} (g : α → β) (o : Option (List α)) :
    missingOrEmpty (o.map (List.map g)) = missingOrEmpty o := by
  cases o with
  | none => rfl
  | some l => cases l <;> simp [missingOrEmpty]

theorem model_validate_eq (dd : ReportDraft) (a : Article) (e : ExecSummary)
    (t : List TimelineItem) (c : List CitedSource) (r : List RawFactGroup)
    (p : List Perspective) (ha : dd.article = some a)
    (he : dd.executive_summary = some e) (ht : dd.timeline_items = some t)
    (hc : dd.cited_sources = some c) (hr : dd.raw_facts = some r)
    (hp : dd.perspectives = some p) :
    model_validate dd = some ⟨a, e, t, c, r, p⟩ := by
  obtain ⟨A, E, T, C, R, P, CI⟩ := dd
  simp only at ha he ht hc hr hp
  subst ha he ht hc hr hp
  rfl

/-- The claim C5 asserts that a placeholder is synthesized for every required
section kind that is missing, including the Narrative article itself: false,
because there is no fallback branch for the article key, so a run whose
article generator failed produces no report at all. -/
theorem C5_counterexample :
    assembleTopicReport 7 "some topic" "some-topic" "2024-01-01" "Research"
      "2024-01-02" 0 emptyDraft = none := by
  decide

/-- Amendment of C5 forced by the counterexample: for every required section
kind other than the article (executive_summary, timeline_items, cited_sources,
raw_facts, perspectives) that is missing or empty after the workflow run, the
assembler synthesizes the labeled placeholder payload referencing the query,
and the assembled report validates against the schema with every list section
non-empty - provided the article section itself is present; when the article
is missing the run fails and returns no report. -/
theorem C5_amended (aid : Nat) (q slug pubAt category now : String)
    (srcCount : Nat) (d : ReportDraft) (a : Article) (ha : d.article = some a) :
    ∃ r : ResearchReport,
      assembleTopicReport aid q slug pubAt category now srcCount d = some r ∧
      r.timeline_items ≠ [] ∧ r.cited_sources ≠ [] ∧ r.raw_facts ≠ [] ∧
      r.perspectives ≠ [] ∧
      (missingOrEmpty d.timeline_items = true →
        r.timeline_items = [fallbackTimeline aid q now]) ∧
      (missingOrEmpty d.cited_sources = true →
        r.cited_sources = [fallbackCitedSource aid]) ∧
      (missingOrEmpty d.raw_facts = true → r.raw_facts = [fallbackRawFacts aid q]) ∧
      (missingOrEmpty d.perspectives = true →
        r.perspectives = [fallbackPerspective aid q]) ∧
      (d.executive_summary = none → r.executive_summary = fallbackSummary aid q) := by
  have hart2 : (stampSections aid
      (setArticleFields aid slug pubAt category srcCount d)).article =
      (setArticleFields aid slug pubAt category srcCount d).article := rfl
  obtain ⟨t, ht, htne, htfb⟩ := ensureList
    (stampSections aid (setArticleFields aid slug pubAt category srcCount d)).timeline_items
    (fallbackTimeline aid q now)
  obtain ⟨c, hc, hcne, hcfb⟩ := ensureList
    (stampSections aid (setArticleFields aid slug pubAt category srcCount d)).cited_sources
    (fallbackCitedSource aid)
  obtain ⟨f, hf, hfne, hffb⟩ := ensureList
    (stampSections aid (setArticleFields aid slug pubAt category srcCount d)).raw_facts
    (fallbackRawFacts aid q)
  obtain ⟨p, hp, hpne, hpfb⟩ := ensureList
    (stampSections aid (setArticleFields aid slug pubAt category srcCount d)).perspectives
    (fallbackPerspective aid q)
  obtain ⟨e, he, hefb⟩ := ensureSummary
    (stampSections aid (setArticleFields aid slug pubAt category srcCount d)).executive_summary
    (fallbackSummary aid q)
  refine ⟨⟨{ a with
      slug := slug, id := aid, read_time := 5, source_count := srcCount,
      published_at := pubAt, category := category,
      author_name := some "AI Agent",
      author_title := some "Research Specialist" }, e, t, c, f, p⟩,
    ?_, htne, hcne, hfne, hpne, ?_, ?_, ?_, ?_, ?_⟩
  · refine model_validate_eq _ _ _ _ _ _ _ ?_ ?_ ?_ ?_ ?_ ?_
    · show (setArticleFields aid slug pubAt category srcCount d).article = _
      rw [setArticleFields]
      simp [ha]
    · exact he
    · exact ht
    · exact hc
    · exact hf
    · exact hp
  · intro hm
    refine htfb ?_
    rw [show (stampSections aid
      (setArticleFields aid slug pubAt category srcCount d)).timeline_items =
      d.timeline_items.map (List.map (fun x => { x with article_id := aid })) from rfl,
      missingOrEmpty_map]
    exact hm
  · intro hm
    refine hcfb ?_
    rw [show (stampSections aid
      (setArticleFields aid slug pubAt category srcCount d)).cited_sources =
      d.cited_sources.map (List.map (fun x => { x with article_id := aid })) from rfl,
      missingOrEmpty_map]
    exact hm
  · intro hm
    refine hffb ?_
    rw [show (stampSections aid
      (setArticleFields aid slug pubAt category srcCount d)).raw_facts =
      d.raw_facts.map (List.map (fun x => { x with article_id := aid })) from rfl,
      missingOrEmpty_map]
    exact hm
  · intro hm
    refine hpfb ?_
    rw [show (stampSections aid
      (setArticleFields aid slug pubAt category srcCount d)).perspectives =
      d.perspectives.map (List.map (fun x => { x with article_id := aid })) from rfl,
      missingOrEmpty_map]
    exact hm
  · intro hm
    refine hefb ?_
    rw [show (stampSections aid
      (setArticleFields aid slug pubAt category srcCount d)).executive_summary =
      d.executive_summary.map (fun s => { s with article_id := aid }) from rfl, hm]
    rfl

/-- A concrete article payload used by the witnesses. -/
def sampleArticle : Article :=
  { id := 0, title := "Sample", slug := "sample", excerpt := "ex",
    content := "body", category := "Research", published_at := "2024-01-01",
    read_time := 1, source_count := 0,
    hero_image_url := "https://example.com/img.jpg",
    author_name := none, author_title := none }

/-- A draft in which only the article generator succeeded. -/
def articleOnlyDraft : ReportDraft :=
  { article := some sampleArticle, executive_summary := none,
    timeline_items := none, cited_sources := none, raw_facts := none,
    perspectives := none, conflicting_info := none }

/-- Witness for C5's amended statement: with the article present and all five
other generators failed, the assembler still produces a validated report. -/
theorem C5_amended_witness :
    articleOnlyDraft.article = some sampleArticle ∧
    (assembleTopicReport 9 "q" "slug-q" "2024-01-02" "Research" "2024-01-03" 2
      articleOnlyDraft).isSome = true := by
  refine ⟨rfl, ?_⟩
  obtain ⟨r, hr, -⟩ := C5_amended 9 "q" "slug-q" "2024-01-02" "Research"
    "2024-01-03" 2 articleOnlyDraft sampleArticle rfl
  rw [hr]
  rfl

/-- Property asserted by C7: the article carries the assigned id and every
element of every list-valued section and the executive_summary carry that same
id. -/
def stampedOK (aid : Nat) (r : ResearchReport) : Prop :=
  r.article.id = aid ∧ r.executive_summary.article_id = aid ∧
  (∀ x ∈ r.timeline_items, x.article_id = aid) ∧
  (∀ x ∈ r.cited_sources, x.article_id = aid) ∧
  (∀ x ∈ r.raw_facts, x.article_id = aid) ∧
  (∀ x ∈ r.perspectives, x.article_id = aid)

theorem model_validate_some (dd : ReportDraft) (r : ResearchReport)
    (h : model_validate dd = some r) :
    dd.article = some r.article ∧
    dd.executive_summary = some r.executive_summary ∧
    dd.timeline_items = some r.timeline_items ∧
    dd.cited_sources = some r.cited_sources ∧
    dd.raw_facts = some r.raw_facts ∧
    dd.perspectives = some r.perspectives := by
  obtain ⟨A, E, T, C, R, P, CI⟩ := dd
  cases A with
  | none => exact absurd h (by simp [model_validate])
  | some a =>
  cases E with
  | none => exact absurd h (by simp [model_validate])
  | some e =>
  cases T with
  | none => exact absurd h (by simp [model_validate])
  | some t =>
  cases C with
  | none => exact absurd h (by simp [model_validate])
  | some c =>
  cases R with
  | none => exact absurd h (by simp [model_validate])
  | some rr =>
  cases P with
  | none => exact absurd h (by simp [model_validate])
  | some p =>
  have hred : model_validate
      ⟨some a, some e, some t, some c, some rr, some p, CI⟩ =
      some ⟨a, e, t, c, rr, p⟩ := rfl
  rw [hred] at h
  injection h with h
  subst h
  exact ⟨rfl, rfl, rfl, rfl, rfl, rfl⟩

theorem ensuredStamped {α : Type} (getId : α → Nat) (aid : Nat) (g : α → α)
    (hg : ∀ x, getId (g x) = aid) (o : Option (List α)) (fb : α)
    (hfb : getId fb = aid) (l : List α)
    (hl : (if missingOrEmpty (o.map (List.map g)) then some [fb]
      else o.map (List.map g)) = some l) :
    ∀ x ∈ l, getId x = aid := by
  by_cases hm : missingOrEmpty (o.map (List.map g)) = true
  · rw [if_pos hm] at hl
    injection hl with hl
    subst hl
    simpa using hfb
  · rw [if_neg hm] at hl
    cases o with
    | none => simp at hl
    | some l0 =>
      rw [Option.map_some', Option.some.injEq] at hl
      subst hl
      intro x hx
      rw [List.mem_map] at hx
      obtain ⟨y, -, rfl⟩ := hx
      exact hg y

theorem mappedStamped {α : Type} (getId : α → Nat) (aid : Nat) (g : α → α)
    (hg : ∀ x, getId (g x) = aid) (o : Option (List α)) (l : List α)
    (hl : o.map (List.map g) = some l) :
    ∀ x ∈ l, getId x = aid := by
  cases o with
  | none => simp at hl
  | some l0 =>
    rw [Option.map_some', Option.some.injEq] at hl
    subst hl
    intro x hx
    rw [List.mem_map] at hx
    obtain ⟨y, -, rfl⟩ := hx
    exact hg y

/-- The claim C7 asserts that in every report that validates and is cached,
the article carries the assigned id and every list-valued section element
(and the summary) carries the same id; the conflicting_info entries are also
stamped before validation drops them.  This holds on both assembly paths. -/
theorem C7_article_id_stamped (aid : Nat) (q slug pubAt category now : String)
    (srcCount : Nat) (d : ReportDraft) :
    (∀ r, assembleTopicReport aid q slug pubAt category now srcCount d = some r →
      stampedOK aid r) ∧
    (∀ r, assembleResearchReport aid srcCount d = some r → stampedOK aid r) ∧
    (∀ x ∈ (stampSections aid d).conflicting_info.getD [],
      x.article_id = aid) := by
  refine ⟨?_, ?_, ?_⟩
  · intro r hr
    obtain ⟨hA, hE, hT, hC, hR, hP⟩ := model_validate_some _ r hr
    have hA' : d.article.map (fun a =>
        ({ a with
          slug := slug, id := aid, read_time := 5, source_count := srcCount,
          published_at := pubAt, category := category,
          author_name := some "AI Agent",
          author_title := some "Research Specialist" } : Article)) =
        some r.article := hA
    have hE' : (if (d.executive_summary.map
          (fun s => ({ s with article_id := aid } : ExecSummary))).isNone then
        some (fallbackSummary aid q)
        else d.executive_summary.map (fun s => { s with article_id := aid })) =
        some r.executive_summary := hE
    refine ⟨?_, ?_, ?_, ?_, ?_, ?_⟩
    · rw [Option.map_eq_some'] at hA'
      obtain ⟨a0, -, ha0⟩ := hA'
      rw [← ha0]
    · cases hd : d.executive_summary with
      | none =>
        rw [hd] at hE'
        simp only [Option.map_none', Option.isNone_none, if_true,
          Option.some.injEq] at hE'
        rw [← hE']
        rfl
      | some s0 =>
        rw [hd] at hE'
        simp only [Option.map_some', Option.isNone_some, Bool.false_eq_true,
          if_false, Option.some.injEq] at hE'
        rw [← hE']
    · exact ensuredStamped (fun x => x.article_id) aid _ (fun x => rfl) _ _ rfl _ hT
    · exact ensuredStamped (fun x => x.article_id) aid _ (fun x => rfl) _ _ rfl _ hC
    · exact ensuredStamped (fun x => x.article_id) aid _ (fun x => rfl) _ _ rfl _ hR
    · exact ensuredStamped (fun x => x.article_id) aid _ (fun x => rfl) _ _ rfl _ hP
  · intro r hr
    obtain ⟨hA, hE, hT, hC, hR, hP⟩ := model_validate_some _ r hr
    have hA' : d.article.map (fun a =>
        ({ a with
          slug := slugify a.title, id := aid, read_time := 5,
          source_count := srcCount, published_at := "2024-01-01T00:00:00Z",
          category := "Research", author_name := some "AI Agent",
          author_title := some "Research Specialist" } : Article)) =
        some r.article := hA
    have hE' : d.executive_summary.map
        (fun s => ({ s with article_id := aid } : ExecSummary)) =
        some r.executive_summary := hE
    refine ⟨?_, ?_, ?_, ?_, ?_, ?_⟩
    · rw [Option.map_eq_some'] at hA'
      obtain ⟨a0, -, ha0⟩ := hA'
      rw [← ha0]
    · rw [Option.map_eq_some'] at hE'
      obtain ⟨s0, -, hs0⟩ := hE'
      rw [← hs0]
    · exact mappedStamped (fun x => x.article_id) aid _ (fun x => rfl) _ _ hT
    · exact mappedStamped (fun x => x.article_id) aid _ (fun x => rfl) _ _ hC
    · exact mappedStamped (fun x => x.article_id) aid _ (fun x => rfl) _ _ hR
    · exact mappedStamped (fun x => x.article_id) aid _ (fun x => rfl) _ _ hP
  · intro x hx
    have hci : (stampSections aid d).conflicting_info =
        d.conflicting_info.map (List.map (fun c => { c with article_id := aid })) := rfl
    rw [hci] at hx
    cases hd : d.conflicting_info with
    | none => rw [hd] at hx; simp at hx
    | some l0 =>
      rw [hd, Option.map_some', Option.getD_some, List.mem_map] at hx
      obtain ⟨y, -, rfl⟩ := hx
      rfl

/-- The report assembled from articleOnlyDraft by the witness run. -/
def c7report : ResearchReport :=
  { article := {
      id := 9, title := "Sample", slug := "slug-q", excerpt := "ex",
      content := "body", category := "Research", published_at := "2024-01-02",
      read_time := 5, source_count := 2,
      hero_image_url := "https://example.com/img.jpg",
      author_name := some "AI Agent",
      author_title := some "Research Specialist" },
    executive_summary := fallbackSummary 9 "q",
    timeline_items := [fallbackTimeline 9 "q" "2024-01-03"],
    cited_sources := [fallbackCitedSource 9],
    raw_facts := [fallbackRawFacts 9 "q"],
    perspectives := [fallbackPerspective 9 "q"] }

/-- Witness for C7 at a concrete run: the assembled report exists and every
element carries the assigned id 9. -/
theorem C7_witness :
    assembleTopicReport 9 "q" "slug-q" "2024-01-02" "Research" "2024-01-03" 2
      articleOnlyDraft = some c7report ∧ stampedOK 9 c7report := by
  have h : assembleTopicReport 9 "q" "slug-q" "2024-01-02" "Research"
      "2024-01-03" 2 articleOnlyDraft = some c7report := by decide
  exact ⟨h, (C7_article_id_stamped 9 "q" "slug-q" "2024-01-02" "Research"
    "2024-01-03" 2 articleOnlyDraft).1 c7report h⟩

/-- Python prefix test on character lists: the first list is a prefix of the
second. -/
def leadsList : List Char → List Char → Bool
  | [], _ => true
  | _ :: _, [] => false
  | x :: xs, y :: ys => x == y && leadsList xs ys

/-- Python substring operator: the needle (second argument) occurs contiguously
inside the haystack (first argument). -/
def containsSub : List Char → List Char → Bool
  | [], needle => leadsList needle []
  | c :: rest, needle => leadsList needle (c :: rest) || containsSub rest needle

/-- Answer of the article read endpoint (main.py:1595-1617): the cached report,
HTTP 202 Pending, or HTTP 404 Not Found. -/
inductive GetArticleResult where
  | report (r : ResearchReport)
  | pending
  | notFound
deriving DecidableEq, Repr

/-- report_cache.get (main.py:1599) over the cache modelled as an association
list. -/
def lookupCache (cache : List (String × ResearchReport)) (slug : String) :
    Option ResearchReport :=
  (cache.find? (fun e => decide (e.1 = slug))).map (fun e => e.2)

/-- get_article (main.py:1595-1617): a cache hit returns the report; otherwise
the queued test asks whether the requested slug occurs as a substring of some
queued headline lowercased with spaces replaced by hyphens (no punctuation
stripping), answering 202 Pending, else 404 Not Found. -/
def get_article (slug : String) (cache : List (String × ResearchReport))
    (queue : List QueuedTopic) : GetArticleResult :=
  match lookupCache cache slug with
  | some r => GetArticleResult.report r
  | none =>
    if queue.any (fun t =>
        containsSub (spaceToHyphen (pyLower t.headline)).data slug.data) then
      GetArticleResult.pending
    else GetArticleResult.notFound

/-- A queued topic whose headline carries punctuation that slug derivation
strips. -/
def punctTopic : QueuedTopic := ⟨"Hello, World!", slugify "Hello, World!", false⟩

/-- The claim C8 asserts that a slug that is not cached but is present in the
generation queue yields a Pending signal: false, because the queued test is a
substring match against the headline with spaces replaced by hyphens but
punctuation kept, so the queued slug of a punctuated headline is reported
Not Found. -/
theorem C8_counterexample :
    slugify "Hello, World!" = "hello-world" ∧
    punctTopic.slug = slugify "Hello, World!" ∧
    get_article "hello-world" [] [punctTopic] = GetArticleResult.notFound := by
  refine ⟨by decide, rfl, by decide⟩

/-- Characters on which slug derivation strips nothing: lowercase ASCII
letters, digits, hyphen and space. -/
def cleanChar (c : Char) : Bool :=
  decide ((97 ≤ c.toNat ∧ c.toNat ≤ 122) ∨ (48 ≤ c.toNat ∧ c.toNat ≤ 57) ∨
    c = hyphen ∨ c = spaceChar)

theorem pyLowerChar_clean {c : Char} (h : cleanChar c = true) :
    pyLowerChar c = c := by
  rw [cleanChar, decide_eq_true_iff] at h
  have hno : ¬ (65 ≤ c.toNat ∧ c.toNat ≤ 90) := by
    rcases h with h | h | h | h
    · omega
    · omega
    · subst h; decide
    · subst h; decide
  rw [pyLowerChar, if_neg hno]

theorem slugKeep_mapSpace {c : Char} (h : cleanChar c = true) :
    slugKeep (if c = spaceChar then hyphen else c) = true := by
  by_cases hs : c = spaceChar
  · rw [if_pos hs]; decide
  · rw [if_neg hs]
    rw [cleanChar, decide_eq_true_iff] at h
    rw [slugKeep, decide_eq_true_iff]
    rcases h with h | h | h | h
    · exact Or.inl h
    · exact Or.inr (Or.inl h)
    · exact Or.inr (Or.inr h)
    · exact absurd h hs

theorem ne_dquote_mapSpace {c : Char} (h : cleanChar c = true) :
    (if c = spaceChar then hyphen else c) ≠ dquote := by
  by_cases hs : c = spaceChar
  · rw [if_pos hs]; decide
  · rw [if_neg hs]
    rw [cleanChar, decide_eq_true_iff] at h
    intro hq
    subst hq
    have h34 : dquote.toNat = 34 := by decide
    rcases h with h | h | h | h
    · omega
    · omega
    · exact absurd h (by decide)
    · exact absurd h (by decide)

theorem slugify_clean (s : String) (hc : ∀ c ∈ s.data, cleanChar c = true) :
    pyLower s = s ∧ slugify s = spaceToHyphen s := by
  have hlow : s.data.map pyLowerChar = s.data := by
    rw [show s.data.map pyLowerChar = s.data.map id from
      List.map_congr_left (fun a ha => pyLowerChar_clean (hc a ha)), List.map_id]
  have hpy : pyLower s = s := by
    rw [pyLower, hlow]
  refine ⟨hpy, ?_⟩
  have hslug : slugify s = String.mk ((((s.data.map pyLowerChar).map
      (fun c => if c = spaceChar then hyphen else c)).filter
      (fun c => decide (c ≠ dquote))).filter slugKeep) := rfl
  rw [hslug, hlow]
  have h1 : (s.data.map (fun c => if c = spaceChar then hyphen else c)).filter
      (fun c => decide (c ≠ dquote)) =
      s.data.map (fun c => if c = spaceChar then hyphen else c) := by
    rw [List.filter_eq_self]
    intro a ha
    rw [List.mem_map] at ha
    obtain ⟨c, hcm, rfl⟩ := ha
    exact decide_eq_true (ne_dquote_mapSpace (hc c hcm))
  rw [h1]
  have h2 : (s.data.map (fun c => if c = spaceChar then hyphen else c)).filter
      slugKeep = s.data.map (fun c => if c = spaceChar then hyphen else c) := by
    rw [List.filter_eq_self]
    intro a ha
    rw [List.mem_map] at ha
    obtain ⟨c, hcm, rfl⟩ := ha
    exact slugKeep_mapSpace (hc c hcm)
  rw [h2]
  rfl

theorem leadsList_self : ∀ l : List Char, leadsList l l = true
  | [] => rfl
  | x :: xs => by
    rw [leadsList]
    simp [leadsList_self xs]

theorem containsSub_self : ∀ l : List Char, containsSub l l = true
  | [] => rfl
  | c :: rest => by
    rw [containsSub, leadsList_self]
    rfl

/-- Amendment of C8 forced by the counterexample: get_article is total (a
cache miss yields an explicit Pending or Not Found signal, never an unhandled
error): a cached slug returns its report; an uncached slug returns Pending
exactly when it occurs as a substring of some queued headline lowercased with
spaces replaced by hyphens - in particular a queued topic whose headline
consists only of lowercase letters, digits, spaces and hyphens is reported
Pending - and Not Found when no such substring match exists; for punctuated
headlines the substring test can misclassify a queued slug as Not Found. -/
theorem C8_amended (slug : String) (cache : List (String × ResearchReport))
    (queue : List QueuedTopic) :
    (∀ r, lookupCache cache slug = some r →
      get_article slug cache queue = GetArticleResult.report r) ∧
    (lookupCache cache slug = none →
      (∃ t, t ∈ queue ∧ (∀ c ∈ t.headline.data, cleanChar c = true) ∧
        slugify t.headline = slug) →
      get_article slug cache queue = GetArticleResult.pending) ∧
    (lookupCache cache slug = none →
      (∀ t ∈ queue, containsSub (spaceToHyphen (pyLower t.headline)).data
        slug.data = false) →
      get_article slug cache queue = GetArticleResult.notFound) := by
  refine ⟨?_, ?_, ?_⟩
  · intro r hr
    simp [get_article, hr]
  · rintro hnone ⟨t, ht, hclean, hslug⟩
    have hpy := slugify_clean t.headline hclean
    have hself : containsSub (spaceToHyphen (pyLower t.headline)).data
        slug.data = true := by
      rw [hpy.1, ← hpy.2, hslug]
      exact containsSub_self _
    have hany : (queue.any fun t =>
        containsSub (spaceToHyphen (pyLower t.headline)).data slug.data) = true := by
      rw [List.any_eq_true]
      exact ⟨t, ht, hself⟩
    simp [get_article, hnone, hany]
  · intro hnone hall
    have hany : (queue.any fun t =>
        containsSub (spaceToHyphen (pyLower t.headline)).data slug.data) = false := by
      rw [List.any_eq_false]
      intro x hx
      simp [hall x hx]
    simp [get_article, hnone, hany]

/-- Witness for C8's amended statement: a cached slug returns its report. -/
theorem C8_amended_witness :
    lookupCache [("slug-q", c7report)] "slug-q" = some c7report ∧
    get_article "slug-q" [("slug-q", c7report)] [] =
      GetArticleResult.report c7report := by
  refine ⟨rfl, ?_⟩
  exact (C8_amended "slug-q" [("slug-q", c7report)] []).1 c7report rfl

/-- generate_article_for_topic wraps its entire body in try/except and returns
None on any raised exception (main.py:234, 396-398); a normal completion
returns the slug (or None when no headline was given). -/
def generate_article_for_topic_result (body : Except String (Option String)) :
    Option String :=
  match body with
  | Except.ok v => v
  | Except.error _ => none

/-- The substring test applied to a caught exception by the worker
(main.py:209). -/
def mentionsRateLimit (msg : String) : Bool :=
  containsSub (pyLower msg).data "rate limit".data

/-- State owned by the background worker: the generation queue and the cache
modelled by its slug set. -/
structure WorkerState where
  queue : List QueuedTopic
  cache : List String
deriving DecidableEq, Repr

/-- One iteration of the worker loop in process_article_generation_queue
(main.py:163-215), parameterized by the outcome of the call to
generate_article_with_retry: a normal return carrying Option slug, or a raised
exception carrying its message.  A rate-limit-mentioning exception re-enqueues
the popped topic at the back; any other failure drops it. -/
def worker_step (st : WorkerState) (call : Except String (Option String)) :
    WorkerState :=
  match st.queue with
  | [] => st
  | t :: rest =>
    if t.slug ∈ st.cache ∧ t.force_research = false then { st with queue := rest }
    else
      match call with
      | Except.ok (some slug) => { queue := rest, cache := slug :: st.cache }
      | Except.ok none => { st with queue := rest }
      | Except.error msg =>
        if mentionsRateLimit msg then { st with queue := rest ++ [t] }
        else { st with queue := rest }

/-- The call outcome the worker actually observes: generate_article_for_topic
never raises (its whole body is inside try/except returning None), so the call
always returns normally and the worker's except branch is unreachable from a
generation failure. -/
def generate_article_with_retry_call (body : Except String (Option String)) :
    Except String (Option String) :=
  Except.ok (generate_article_for_topic_result body)

/-- An unforced queued topic used as C9's failing input. -/
def rlTopic : QueuedTopic := ⟨"Topic", "topic", false⟩

/-- The claim C9 asserts a job whose generation fails with a rate-limit error
is re-enqueued at the back: false on the code as written, because the blanket
except in generate_article_for_topic converts the rate-limit failure into a
normal None return, so the worker drops the job; the worker's own re-enqueue
branch would fire only if the exception propagated, as the third conjunct
shows. -/
theorem C9_rate_limited_job_dropped :
    (worker_step ⟨[rlTopic], []⟩
      (generate_article_with_retry_call
        (Except.error "Rate limit exceeded"))).queue = [] ∧
    mentionsRateLimit "Rate limit exceeded" = true ∧
    (worker_step ⟨[rlTopic], []⟩
      (Except.error "Rate limit exceeded")).queue = [rlTopic] := by
  refine ⟨by decide, by decide, by decide⟩

/-- article_id assignment (main.py:286, 1555): the uuid4 integer masked to its
low 31 bits. -/
def article_id_of (u : Nat) : Nat := u &&& (2 ^ 31 - 1)

/-- The claim C10 asserts every assigned article_id is the uuid masked to its
low 31 bits, hence below 2^31 and represented in a signed 32-bit integer. -/
theorem C10_article_id_31_bits (u : Nat) :
    article_id_of u = u % 2 ^ 31 ∧ article_id_of u < 2 ^ 31 := by
  constructor
  · exact Nat.and_pow_two_sub_one_eq_mod u 31
  · show u &&& (2 ^ 31 - 1) < 2 ^ 31
    exact lt_of_le_of_lt Nat.and_le_right (by norm_num)

end TimioWeb
